import Mathlib

/-!
Verification of the `ajillion-rpc-client` call-dispatch, task-polling and
deserialization subsystems, as a shallow embedding of the Python sources
`rpcclient/deserialize.py`, `rpcclient/handlers.py` and
`rpcclient/method_proxy.py`.

Python values appearing on the wire or as constructor arguments are modelled
by the inductive `Value`; Python dictionaries by association lists with
first-match lookup (raw dictionaries have unique keys, and `dictSet` models
Python's in-place update semantics).  Fallible Python code is modelled with
`Except PyExc`.  Iteration over a Python `set` has no specified order, so
functions that iterate over a set (`DictDeserializer._map_arguments`) take
the iteration order as an explicit parameter.
-/

set_option autoImplicit false

/-- A Python value: string, integer, `None`, a JSON-style dictionary or list,
a boolean, or an opaque `concurrent.futures.Future` handle (returned by the
asynchronous execution mode of `AsyncRequestHandler.handle`). -/
inductive Value where
  | str (s : String)
  | int (n : Int)
  | null
  | bool (b : Bool)
  | future
  | dict (entries : List (String × Value))
  | list (vs : List Value)
  deriving Repr, BEq

/-- Python truthiness of an optional value, as used by
`response.json().get("error")` in `RequestHandler.handle`: an absent key,
`None`, `0`, `False`, the empty string and empty containers are falsy. -/
def pyTruthy : Option Value → Bool
  | none => false
  | some v =>
    match v with
    | .str s => !s.isEmpty
    | .int n => n != 0
    | .null => false
    | .bool b => b
    | .future => true
    | .dict es => !es.isEmpty
    | .list vs => !vs.isEmpty

/-- First-match lookup in an association-list dictionary (`d[k]` / `d.get(k)`). -/
def dictGet (d : List (String × Value)) (k : String) : Option Value :=
  match d with
  | [] => none
  | (k', v) :: rest => if k' = k then some v else dictGet rest k

/-- Python `d[k] = v`: overwrite in place if the key exists, else append. -/
def dictSet (d : List (String × Value)) (k : String) (v : Value) : List (String × Value) :=
  match d with
  | [] => [(k, v)]
  | (k', v') :: rest => if k' = k then (k, v) :: rest else (k', v') :: dictSet rest k v

/-- Python `del d[k]`. -/
def dictDel (d : List (String × Value)) (k : String) : List (String × Value) :=
  d.filter (fun kv => kv.1 ≠ k)

/-- Python `list.insert(i, v)` for a non-negative index: inserts before
position `i`, appending when `i` is at least the length of the list. -/
def listInsert {α : Type} (i : Nat) (v : α) (xs : List α) : List α :=
  xs.take i ++ v :: xs.drop i

/-- A parsed HTTP response: the transport status code and the JSON body
(already parsed into a dictionary), as consumed by `RequestHandler.handle`. -/
structure HttpResponse where
  status_code : Nat
  body : List (String × Value)
  deriving Repr, BEq

/-- The Python exception kinds raised by the embedded code.
`DictDeserializer.DeserializerError` is declared in the source as a subclass
of `TypeError` and carries its `__cause__` (set by `raise ... from e`);
`RemoteFailedError` carries the raw response when raised with one. -/
inductive PyExc where
  | typeError
  | attributeError
  | valueError
  | keyError
  | deserializerError (cause : Option PyExc)
  | remoteFailedError (response : Option HttpResponse)
  | remoteTimeoutError
  | noHandlerError
  deriving Repr, BEq

/-- Whether an exception is caught by the clause
`except (AttributeError, TypeError)` in `DictDeserializer.create_from`:
this catches `TypeError`, `AttributeError`, and `DeserializerError`
(a `TypeError` subclass), and nothing else. -/
def caughtByCreateFrom : PyExc → Bool
  | .typeError => true
  | .attributeError => true
  | .deserializerError _ => true
  | _ => false

/-! ## Mapping engine (`rpcclient/deserialize.py`, `DictDeserializer`) -/

/-- `DictDeserializer.UnmappedBehaviour`. -/
inductive UnmappedBehaviour where
  | IGNORE
  | TO_KWARGS
  | FAIL
  deriving Repr, DecidableEq

/-- A mapping rule (`deserialize.py` lines 70-79 dispatch on its type):
an integer positional index, a keyword name, or a transform callable
returning a `(keyword, value)` pair. -/
inductive Rule where
  | pos (i : Nat)
  | kw (name : String)
  | transform (f : String → Value → String × Value)

/-- The target constructor (`target_class`): receives the assembled
positional and keyword arguments and either produces a value or raises. -/
def Creator : Type := List Value → List (String × Value) → Except PyExc Value

/-- Rule lookup `self.rules[key]`. -/
def rulesGet (rules : List (String × Rule)) (k : String) : Option Rule :=
  match rules with
  | [] => none
  | (k', r) :: rest => if k' = k then some r else rulesGet rest k

/-- The deserializer: a target constructor, a rule table and an
unmapped-field policy (`DictDeserializer.__init__`). -/
structure DictDeserializer where
  target_class : Creator
  rules : List (String × Rule)
  unmapped_behaviour : UnmappedBehaviour

namespace DictDeserializer

/-- `DictDeserializer._map_value`: resolve the rule for `key` and return the
`(index, keyword, value)` triple, exactly one slot of which is populated.
Both lookups succeed for every key in the intersection of the raw keys and
the rule keys, the only keys this is called with. -/
def map_value (d : DictDeserializer) (key : String) (raw : List (String × Value)) :
    Option Nat × Option String × Value :=
  match rulesGet d.rules key, dictGet raw key with
  | some rule, some v =>
    match rule with
    | .transform f => let kv := f key v; (none, some kv.1, kv.2)
    | .kw s => (none, some s, v)
    | .pos i => (some i, none, v)
  | _, _ => (none, none, .null)

/-- `DictDeserializer._handle_unmapped_values`: under `IGNORE` return the
empty dictionary; under `FAIL` raise `DeserializerError` when an unmapped
key exists; under `TO_KWARGS` (or `FAIL` with no unmapped key) return the
unmapped entries of the raw dictionary. -/
def handle_unmapped_values (d : DictDeserializer) (raw : List (String × Value)) :
    Except PyExc (List (String × Value)) :=
  if d.unmapped_behaviour = .IGNORE then .ok []
  else
    let unmapped := raw.filter (fun kv => (rulesGet d.rules kv.1).isNone)
    if d.unmapped_behaviour = .FAIL ∧ unmapped.length > 0 then
      .error (.deserializerError none)
    else .ok unmapped

/-- The loop body of `DictDeserializer._map_arguments`: for each visited key,
a positional value is placed with `arguments.insert(index, value)` and a
keyword value with `keywords[keyword] = value`. -/
def mapArgumentsStep (d : DictDeserializer) (raw : List (String × Value))
    (acc : List Value × List (String × Value)) (key : String) :
    List Value × List (String × Value) :=
  match map_value d key raw with
  | (some i, _, v) => (listInsert i v acc.1, acc.2)
  | (none, some k, v) => (acc.1, dictSet acc.2 k v)
  | (none, none, _) => acc

/-- `DictDeserializer._map_arguments`: handle unmapped keys first, then fold
the loop body over the keys in the intersection of the raw keys and the rule
keys.  Python iterates that intersection as a `set`, whose order is
unspecified; `order` is that iteration order, passed explicitly.  Finally
`keywords.update(unmapped)` merges the unmapped entries over the explicit
keywords. -/
def map_arguments (d : DictDeserializer) (order : List String)
    (raw : List (String × Value)) :
    Except PyExc (List Value × List (String × Value)) := do
  let unmapped ← d.handle_unmapped_values raw
  let acc := order.foldl (mapArgumentsStep d raw) ([], [])
  return (acc.1, unmapped.foldl (fun kws kv => dictSet kws kv.1 kv.2) acc.2)

/-- `DictDeserializer.create_from`: reject non-dictionary input, assemble the
arguments, invoke the target constructor, and wrap an `AttributeError` or
`TypeError` raised by it as a `DeserializerError` with the original as its
cause; any other exception from the constructor propagates unchanged. -/
def create_from (d : DictDeserializer) (order : List String) (raw : Value) :
    Except PyExc Value :=
  match raw with
  | .dict entries =>
    match d.map_arguments order entries with
    | .error e => .error e
    | .ok (args, kws) =>
      match d.target_class args kws with
      | .ok v => .ok v
      | .error e =>
        if caughtByCreateFrom e then .error (.deserializerError (some e))
        else .error e
  | _ => .error (.deserializerError none)

end DictDeserializer

/-! ## Request executor (`rpcclient/handlers.py`, `RequestHandler`) -/

/-- The JSON-RPC request envelope built by `RequestHandler.handle`:
`{"method": ..., "params": kwargs, "jsonrpc": "2.0", "id": request_id}`.
The `method` field is a `Value` because an explicit `method` key in the call
arguments is forwarded as-is. -/
structure RequestEnvelope where
  method : Value
  params : List (String × Value)
  jsonrpc : String
  id : Nat
  deriving Repr, BEq

/-- The payload construction of `RequestHandler.handle` (lines 41-53):
set `kwargs["token"] = token`, then extract an explicit `method` key (deleting
it from the params) or fall back to the handler's bound method name. -/
def buildPayload (boundMethod : String) (token : String) (requestId : Nat)
    (kwargs : List (String × Value)) : RequestEnvelope :=
  let kwargs1 := dictSet kwargs "token" (.str token)
  match dictGet kwargs1 "method" with
  | some m => { method := m, params := dictDel kwargs1 "method",
                jsonrpc := "2.0", id := requestId }
  | none => { method := .str boundMethod, params := kwargs1,
              jsonrpc := "2.0", id := requestId }

/-- The state of a `RequestHandler`: the bound method name, target URL and
authentication token (headers carry no logic and are omitted). -/
structure RequestHandler where
  method : String
  url : String
  token : String

/-- `RequestHandler.handle`: build the payload, post it (the transport is a
function from envelope to parsed response), and unwrap.  A non-200 status or
a truthy `error` field raises `RemoteFailedError` carrying the raw response;
otherwise the body's `result` field is returned (`response.json()["result"]`
raises `KeyError` if the key is absent). -/
def RequestHandler.handle (self : RequestHandler) (requestId : Nat)
    (transport : RequestEnvelope → HttpResponse)
    (kwargs : List (String × Value)) : Except PyExc Value :=
  let payload := buildPayload self.method self.token requestId kwargs
  let response := transport payload
  if response.status_code != 200 || pyTruthy (dictGet response.body "error") then
    .error (.remoteFailedError (some response))
  else
    match dictGet response.body "result" with
    | some v => .ok v
    | none => .error .keyError

/-! ## Task poller (`rpcclient/handlers.py`, `AsyncRequestHandler`)

The polling loop of `_internal_handle` is driven by the remote's responses to
the repeated `report.status.get` calls and by the wall clock.  Both are
modelled as an explicit trace: one `PollStep` per loop iteration, carrying
the outcome of that iteration's status round-trip and the value `time.time()`
returns at the deadline check that follows it.  The consecutive-failure
counter `_num_failures` starts at 0 (set in `__init__`; a fresh handler
instance is created for every call by `MethodProxy._get_handler_instance`). -/

/-- `TIMEOUT_SECONDS` (handlers.py line 17). -/
def TIMEOUT_SECONDS : Nat := 60 * 5

/-- `SLEEP_INTERVAL_SECONDS` (handlers.py line 18). -/
def SLEEP_INTERVAL_SECONDS : Nat := 5

/-- Python `status_value == 'ready'`: a string compares by content, any
non-string value compares unequal to the string `'ready'`. -/
def isReadyStatus (v : Value) : Bool :=
  match v with
  | .str s => s = "ready"
  | _ => false

/-- The body of the `try` block in `_report_ready`: the delegate round-trip
followed by `response['status'] == 'ready'`.  A delegate failure propagates;
a non-dictionary response raises `TypeError` at the subscript and a missing
`status` key raises `KeyError` — all are caught by the bare `except`. -/
def statusRead (resp : Except PyExc Value) : Except PyExc Bool :=
  match resp with
  | .error e => .error e
  | .ok v =>
    match v with
    | .dict entries =>
      match dictGet entries "status" with
      | some s => .ok (isReadyStatus s)
      | none => .error .keyError
    | _ => .error .typeError

/-- The outcome of one `_report_ready` call: either the method returns
normally (with the ready flag, `None` counting as not ready, and the updated
`_num_failures`), or it raises `RemoteFailedError`. -/
inductive ReportResult where
  | continue_ (ready : Bool) (num_failures : Nat)
  | raised
  deriving Repr, DecidableEq

/-- `_report_ready` together with `_should_reraise_status_get_error`:
a successful status read resets `_num_failures` to 0 and reports whether the
status equals `"ready"`; any exception increments `_num_failures` and raises
`RemoteFailedError` exactly when the counter now exceeds `_max_failures`,
otherwise the method falls through returning `None` (not ready). -/
def report_ready (num_failures max_failures : Nat) (resp : Except PyExc Value) :
    ReportResult :=
  match statusRead resp with
  | .ok b => .continue_ b 0
  | .error _ =>
    if num_failures + 1 > max_failures then .raised
    else .continue_ false (num_failures + 1)

/-- One iteration of the polling loop: the status round-trip's outcome and
the wall-clock reading at the `time.time() > timeout` check following it. -/
structure PollStep where
  response : Except PyExc Value
  timeAfter : Nat

/-- A step that raises inside the `try` of `_report_ready` (and is therefore
counted as a consecutive failure). -/
def PollStep.fails (s : PollStep) : Bool :=
  match statusRead s.response with
  | .error _ => true
  | .ok _ => false

/-- The observable outcome of the polling phase on a finite trace. -/
inductive PollOutcome where
  | fetched
  | remoteFailed
  | timedOut
  | pending
  deriving Repr, DecidableEq

/-- The `while not self._report_ready(token)` loop of `_internal_handle`
(lines 113-118): each iteration performs the status check (which may raise
`RemoteFailedError` through the failure counter), and when not ready sleeps
and then raises `RemoteTimeoutError` if the wall clock has passed the
deadline computed once at loop entry.  When the loop exits normally the
final `report.data.get` fetch runs (`fetched`); `pending` means the trace
ended while the loop was still polling. -/
def pollLoop (max_failures deadline : Nat) : Nat → List PollStep → PollOutcome
  | _, [] => .pending
  | num_failures, step :: rest =>
    match report_ready num_failures max_failures step.response with
    | .raised => .remoteFailed
    | .continue_ true _ => .fetched
    | .continue_ false num' =>
      if step.timeAfter > deadline then .timedOut
      else pollLoop max_failures deadline num' rest

/-- Python `a or b` on an optional integer: `None` and `0` are falsy. -/
def pyOrNat (a b : Option Nat) : Option Nat :=
  match a with
  | some n => if n = 0 then b else some n
  | none => b

/-- `timeout = _timeout or (configuration and configuration.get('timeout'))
or TIMEOUT_SECONDS` (line 106), with `cfgTimeout` the configured value. -/
def resolveTimeout (tArg cfgTimeout : Option Nat) : Nat :=
  match pyOrNat tArg cfgTimeout with
  | some n => if n = 0 then TIMEOUT_SECONDS else n
  | none => TIMEOUT_SECONDS

/-- `sleep_interval` resolution (lines 107-109), same `or` chain shape. -/
def resolveSleepInterval (sArg cfgSleep : Option Nat) : Nat :=
  match pyOrNat sArg cfgSleep with
  | some n => if n = 0 then SLEEP_INTERVAL_SECONDS else n
  | none => SLEEP_INTERVAL_SECONDS

/-- The polling phase of `_internal_handle` (lines 106-118), entered after the
submit round-trip produced a report token: the deadline is computed once, at
loop entry, as `time.time() + timeout` with the resolved timeout, and the
loop then runs with the consecutive-failure counter starting at 0. -/
def internal_handle_poll (tArg cfgTimeout : Option Nat) (max_failures startTime : Nat)
    (trace : List PollStep) : PollOutcome :=
  pollLoop max_failures (startTime + resolveTimeout tArg cfgTimeout) 0 trace

/-- Thread the polling loop through a trace prefix on which every iteration
keeps polling: no step is ready, none exhausts the failure budget, and none
passes the deadline.  Returns the consecutive-failure counter after the
prefix, or `none` if some step left the loop. -/
def runPolling (max_failures deadline : Nat) : Nat → List PollStep → Option Nat
  | num_failures, [] => some num_failures
  | num_failures, step :: rest =>
    match report_ready num_failures max_failures step.response with
    | .continue_ false num' =>
      if step.timeAfter > deadline then none
      else runPolling max_failures deadline num' rest
    | _ => none

/-- The reserved parameter names bound by `AsyncRequestHandler.handle`'s
signature (`_timeout`, `_sleep_interval`, `_async`, `_max_failures`): these
are captured as named parameters and never reach `**kwargs`. -/
def asyncReservedNames : List String :=
  ["_timeout", "_sleep_interval", "_async", "_max_failures"]

/-- Python keyword binding: the `**kwargs` left over after the named
parameters in `names` have been bound. -/
def bindNamed (names : List String) (kwargs : List (String × Value)) :
    List (String × Value) :=
  kwargs.filter (fun kv => ¬ names.contains kv.1)

/-- The submit envelope of a poll sequence: `self.delegate.handle(**kwargs)`
(line 110) where `kwargs` is what remains of the router call's arguments
after `MethodProxy.__call__` bound `_deserializer` and
`AsyncRequestHandler.handle` bound its four reserved parameters. -/
def asyncSubmitEnvelope (method token : String) (requestId : Nat)
    (callKwargs : List (String × Value)) : RequestEnvelope :=
  buildPayload method token requestId
    (bindNamed asyncReservedNames (bindNamed ["_deserializer"] callKwargs))

/-- The status-poll envelope:
`self.delegate.handle(method='report.status.get', report_token=token)`. -/
def statusEnvelope (method token : String) (requestId : Nat)
    (reportToken : Value) : RequestEnvelope :=
  buildPayload method token requestId
    [("method", .str "report.status.get"), ("report_token", reportToken)]

/-- The final fetch envelope:
`self.delegate.handle(method='report.data.get', report_token=token)`. -/
def fetchEnvelope (method token : String) (requestId : Nat)
    (reportToken : Value) : RequestEnvelope :=
  buildPayload method token requestId
    [("method", .str "report.data.get"), ("report_token", reportToken)]

/-! ## Method router (`rpcclient/method_proxy.py`, `MethodProxy`) -/

/-- An execution strategy (the handler class in a registration table entry):
the synchronous `RequestHandler`, the polling `AsyncRequestHandler`, or a
caller-supplied custom handler class identified by a tag. -/
inductive Strategy where
  | requestHandler
  | asyncRequestHandler
  | custom (tag : Nat)
  deriving Repr, DecidableEq

/-- One entry of a handler table: a predicate `can_handle(url, method,
**kwargs)` and the handler class it selects. -/
structure HandlerRegistration where
  can_handle : String → String → List (String × Value) → Bool
  strategy : Strategy

/-- The duck-typed `deserializers` configuration value: Python probes one
configured object with `hasattr(x, 'create_from')`, `isinstance(x, dict)` and
`callable(x)` in that order, so the model records which of the three
capabilities the object has.  An object with none of them (e.g. `None`)
resolves to no deserializer. -/
structure ConfiguredDeserializers where
  hasCreateFrom : Option DictDeserializer
  asDict : Option (List (String × DictDeserializer))
  asCallable : Option (String → Option DictDeserializer)

/-- The client configuration dictionary, restricted to the keys the embedded
code reads.  An absent key is `none`; `run_async` and the numeric knobs keep
Python truthiness (`pyOrNat`) where the source uses `or`. -/
structure Configuration where
  timeout : Option Nat := none
  sleep_interval : Option Nat := none
  max_failures : Option Nat := none
  run_async : Bool := false
  handlers : Option (List HandlerRegistration) := none
  deserializers : Option ConfiguredDeserializers := none
  async_executor : Option Nat := none

/-- Python `str.endswith`, modelled over the string's character list. -/
def pyEndsWith (s suffix : String) : Bool :=
  suffix.data.isSuffixOf s.data

/-- `MethodProxy.default_handlers`: method names ending in `.task` go to
`AsyncRequestHandler`, everything else to `RequestHandler` via the
catch-all. -/
def default_handlers : List HandlerRegistration :=
  [ { can_handle := fun _ method _ => pyEndsWith method ".task",
      strategy := .asyncRequestHandler },
    { can_handle := fun _ _ _ => true, strategy := .requestHandler } ]

/-- The `for (can_handle, handler) in handlers / else raise NoHandlerError`
loop of `MethodProxy._get_handler_instance`: first predicate returning true
wins; an exhausted table raises `NoHandlerError`. -/
def selectHandler (url method : String) (kwargs : List (String × Value)) :
    List HandlerRegistration → Except PyExc Strategy
  | [] => .error .noHandlerError
  | reg :: rest =>
    if reg.can_handle url method kwargs then .ok reg.strategy
    else selectHandler url method kwargs rest

/-- `handlers = (self._configuration and self._configuration.get('handlers',
None)) or MethodProxy.default_handlers` (line 54): a missing configuration, a
missing `handlers` key, and — because an empty Python list is falsy — an
empty configured table all fall back to the default table. -/
def effectiveHandlers (configuration : Option Configuration) :
    List HandlerRegistration :=
  match configuration with
  | none => default_handlers
  | some cfg =>
    match cfg.handlers with
    | none => default_handlers
    | some table => if table.isEmpty then default_handlers else table

/-- The router: the accumulated dotted method name plus the immutable call
context (`MethodProxy.__init__`). -/
structure MethodProxy where
  url : String
  token : String
  method : String
  configuration : Option Configuration

namespace MethodProxy

/-- `MethodProxy._get_handler_instance`. -/
def get_handler_instance (p : MethodProxy) (kwargs : List (String × Value)) :
    Except PyExc Strategy :=
  selectHandler p.url p.method kwargs (effectiveHandlers p.configuration)

/-- `MethodProxy._get_deserializer` (lines 40-51): the explicit per-call
override wins; otherwise the configured `deserializers` value is probed with
`hasattr(_, 'create_from')`, then `isinstance(_, dict)` (looked up by the
full dotted method name), then `callable(_)`; otherwise no deserializer. -/
def get_deserializer (p : MethodProxy) (override : Option DictDeserializer) :
    Option DictDeserializer :=
  match override with
  | some d => some d
  | none =>
    match p.configuration with
    | none => none
    | some cfg =>
      match cfg.deserializers with
      | none => none
      | some ds =>
        match ds.hasCreateFrom with
        | some d => some d
        | none =>
          match ds.asDict with
          | some table => (table.find? (fun kv => kv.1 = p.method)).map Prod.snd
          | none =>
            match ds.asCallable with
            | some f => f p.method
            | none => none

/-- `MethodProxy.__getattr__`: extending the chain by one attribute returns a
new router whose method name is `self._method + "." + inner_item`; every
other field is passed through and the receiving router is not modified. -/
def getattr (p : MethodProxy) (inner_item : String) : MethodProxy :=
  { url := p.url, token := p.token,
    method := p.method ++ "." ++ inner_item,
    configuration := p.configuration }

/-- Repeated attribute extension: `p.n1.n2...nk`. -/
def extendChain (p : MethodProxy) (names : List String) : MethodProxy :=
  names.foldl getattr p

/-- The deserialization tail of `MethodProxy.__call__` (lines 27-31): given
the strategy's response, apply the resolved deserializer's `create_from` when
one resolved, else return the raw response unchanged.  An exception from the
strategy propagates. -/
def callResult (p : MethodProxy) (override : Option DictDeserializer)
    (order : List String) (response : Except PyExc Value) : Except PyExc Value :=
  match response with
  | .error e => .error e
  | .ok r =>
    match p.get_deserializer override with
    | some d => d.create_from order r
    | none => .ok r

end MethodProxy

/-- The mode dispatch of `AsyncRequestHandler.handle` (lines 96-103): when the
per-call `_async` flag is truthy or the configuration has a truthy
`run_async`, the whole submit/poll/fetch sequence is submitted to an executor
and a `Future` is returned immediately; otherwise `_internal_handle` runs on
the calling thread and its outcome (`blocking`) is the result.
`AsyncRequestHandler.__init__` reads `configuration.get('max_failures')`, so
a missing configuration raises `AttributeError` before any dispatch. -/
def asyncHandleResult (configuration : Option Configuration) (asyncFlag : Bool)
    (blocking : Except PyExc Value) : Except PyExc Value :=
  match configuration with
  | none => .error .attributeError
  | some cfg =>
    if asyncFlag || cfg.run_async then .ok .future
    else blocking

/-- `MethodProxy.__call__` specialised to a call the Task Poller strategy
handles: the handler's response (a `Future` in asynchronous mode, the
blocking poll outcome otherwise) is fed through the deserialization tail. -/
def MethodProxy.callAsyncStrategy (p : MethodProxy)
    (override : Option DictDeserializer) (order : List String)
    (asyncFlag : Bool) (blocking : Except PyExc Value) : Except PyExc Value :=
  p.callResult override order (asyncHandleResult p.configuration asyncFlag blocking)

/-! ## Concrete fixtures used by witnesses and counterexamples -/

/-- A deserializer whose constructor always succeeds with `None`. -/
def trivialDeserializer : DictDeserializer :=
  { target_class := fun _ _ => .ok .null, rules := [],
    unmapped_behaviour := .IGNORE }

/-- A deserializer whose constructor raises `ValueError`. -/
def valueErrorDeserializer : DictDeserializer :=
  { target_class := fun _ _ => .error .valueError, rules := [],
    unmapped_behaviour := .IGNORE }

/-- A deserializer whose constructor raises `TypeError`. -/
def typeErrorDeserializer : DictDeserializer :=
  { target_class := fun _ _ => .error .typeError, rules := [],
    unmapped_behaviour := .IGNORE }

/-- A deserializer with three integer rules at indices 0, 1, 2, whose
constructor packages its positional arguments (`DictDeserializer(Thing,
\x7b'a': 0, 'b': 1, 'c': 2\x7d)` with `Thing = lambda *args: list(args)`). -/
def threePositionalDeserializer : DictDeserializer :=
  { target_class := fun args _ => .ok (.list args),
    rules := [("a", .pos 0), ("b", .pos 1), ("c", .pos 2)],
    unmapped_behaviour := .IGNORE }

/-- The raw mapping `\x7b'a': 'va', 'b': 'vb', 'c': 'vc'\x7d`. -/
def threeKeyRaw : List (String × Value) :=
  [("a", .str "va"), ("b", .str "vb"), ("c", .str "vc")]

/-- A router with no configuration. -/
def plainProxy : MethodProxy :=
  { url := "u", token := "t", method := "x.y", configuration := none }

/-- A router configured with a given `deserializers` value. -/
def proxyWithDeserializers (ds : ConfiguredDeserializers) : MethodProxy :=
  { url := "u", token := "t", method := "x.y",
    configuration := some { deserializers := some ds } }

/-- A router whose configuration carries an empty custom handler table. -/
def proxyEmptyHandlers : MethodProxy :=
  { url := "u", token := "t", method := "advertisers.get",
    configuration := some { handlers := some [] } }

/-- A one-entry custom handler table whose predicate never matches. -/
def noMatchTable : List HandlerRegistration :=
  [{ can_handle := fun _ _ _ => false, strategy := .custom 0 }]

/-- A router whose configuration carries `noMatchTable`. -/
def proxyNoMatchHandlers : MethodProxy :=
  { url := "u", token := "t", method := "advertisers.get",
    configuration := some { handlers := some noMatchTable } }

/-- A poll step whose status round-trip raised (here a `KeyError`),
observed well before the deadline. -/
def failingStep : PollStep :=
  { response := .error .keyError, timeAfter := 0 }

/-- A poll step reading status `"ready"` before the deadline. -/
def readyStep : PollStep :=
  { response := .ok (.dict [("status", .str "ready")]), timeAfter := 0 }

/-- A poll step reading a non-ready status, observed at time 11. -/
def pendingStepLate : PollStep :=
  { response := .ok (.dict [("status", .str "pending")]), timeAfter := 11 }

/-- A poll step whose status round-trip raised, observed at time 11. -/
def failingStepLate : PollStep :=
  { response := .error .keyError, timeAfter := 11 }

/-! ## Helper lemmas -/

theorem dictGet_dictSet (d : List (String × Value)) (k n : String) (v : Value) :
    dictGet (dictSet d k v) n = if n = k then some v else dictGet d n := by
  induction d with
  | nil =>
    by_cases h : n = k
    · simp [dictSet, dictGet, h]
    · have h' : ¬ k = n := fun hh => h hh.symm
      simp [dictSet, dictGet, h, h']
  | cons kv rest ih =>
    obtain ⟨k', v'⟩ := kv
    by_cases hk : k' = k
    · by_cases hn : n = k
      · simp [dictSet, dictGet, hk, hn]
      · have hn' : ¬ k = n := fun hh => hn hh.symm
        simp [dictSet, dictGet, hk, hn, hn']
    · by_cases hn : k' = n
      · have hnk : ¬ n = k := fun hh => hk (hn.trans hh)
        simp [dictSet, dictGet, hk, hn, hnk]
      · simp [dictSet, dictGet, hk, hn, ih]

theorem dictGet_dictDel (d : List (String × Value)) (k n : String) :
    dictGet (dictDel d k) n = if n = k then none else dictGet d n := by
  induction d with
  | nil => simp [dictDel, dictGet]
  | cons kv rest ih =>
    obtain ⟨k', v'⟩ := kv
    by_cases hk : k' = k
    · have hdel : dictDel ((k', v') :: rest) k = dictDel rest k := by
        simp [dictDel, hk]
      rw [hdel, ih]
      by_cases hn : n = k
      · simp [hn]
      · have hn' : ¬ k' = n := fun hh => hn (hk.symm.trans hh).symm
        simp [hn, dictGet, hn']
    · have hdel : dictDel ((k', v') :: rest) k = (k', v') :: dictDel rest k := by
        simp [dictDel, hk]
      rw [hdel]
      by_cases hn : k' = n
      · have hnk : ¬ n = k := fun hh => hk (hn.trans hh)
        simp [dictGet, hn, hnk]
      · simp [dictGet, hn, ih]

theorem dictGet_bindNamed (names : List String) (kwargs : List (String × Value))
    (n : String) (h : names.contains n = true) :
    dictGet (bindNamed names kwargs) n = none := by
  induction kwargs with
  | nil => simp [bindNamed, dictGet]
  | cons kv rest ih =>
    obtain ⟨k', v'⟩ := kv
    by_cases hmem : names.contains k' = true
    · have hmem' : k' ∈ names := by simpa using hmem
      have hstep : bindNamed names ((k', v') :: rest) = bindNamed names rest := by
        simp [bindNamed, List.filter_cons, hmem']
      rw [hstep, ih]
    · have hmem' : k' ∉ names := by simpa using hmem
      have hne : ¬ k' = n := fun he => hmem (he ▸ h)
      have hstep : bindNamed names ((k', v') :: rest)
          = (k', v') :: bindNamed names rest := by
        simp [bindNamed, List.filter_cons, hmem']
      rw [hstep]
      simp [dictGet, hne, ih]

theorem statusRead_of_fails (s : PollStep) (h : s.fails = true) :
    ∃ e, statusRead s.response = .error e := by
  unfold PollStep.fails at h
  rcases hs : statusRead s.response with e | b
  · exact ⟨e, rfl⟩
  · rw [hs] at h; simp at h

theorem report_ready_of_fails (nf maxF : Nat) (s : PollStep) (h : s.fails = true) :
    report_ready nf maxF s.response =
      (if nf + 1 > maxF then .raised else .continue_ false (nf + 1)) := by
  obtain ⟨e, he⟩ := statusRead_of_fails s h
  unfold report_ready
  rw [he]

theorem pollLoop_failing_skip (steps : List PollStep) (maxF deadline : Nat) :
    ∀ (nf : Nat) (rest : List PollStep),
      (∀ s ∈ steps, s.fails = true ∧ s.timeAfter ≤ deadline) →
      nf + steps.length ≤ maxF →
      pollLoop maxF deadline nf (steps ++ rest)
        = pollLoop maxF deadline (nf + steps.length) rest := by
  induction steps with
  | nil => intro nf rest _ _; simp
  | cons s t ih =>
    intro nf rest hall hlen
    obtain ⟨hfail, htime⟩ := hall s (List.mem_cons_self s t)
    have hnf : ¬ nf + 1 > maxF := by
      simp only [List.length_cons] at hlen; omega
    have hstep := report_ready_of_fails nf maxF s hfail
    rw [if_neg hnf] at hstep
    have hnot : ¬ s.timeAfter > deadline := by omega
    simp only [List.cons_append, pollLoop, hstep, if_neg hnot]
    have hrec := ih (nf + 1) rest
      (fun x hx => hall x (List.mem_cons_of_mem s hx))
      (by simp only [List.length_cons] at hlen; omega)
    rw [show t.append rest = t ++ rest from rfl, hrec]
    congr 1
    simp only [List.length_cons]; omega

theorem pollLoop_failing_raises (steps : List PollStep) (maxF deadline : Nat) :
    ∀ nf : Nat,
      (∀ s ∈ steps, s.fails = true ∧ s.timeAfter ≤ deadline) →
      nf ≤ maxF → nf + steps.length = maxF + 1 →
      pollLoop maxF deadline nf steps = .remoteFailed := by
  induction steps with
  | nil => intro nf _ hle hlen; simp at hlen; omega
  | cons s t ih =>
    intro nf hall hle hlen
    obtain ⟨hfail, htime⟩ := hall s (List.mem_cons_self s t)
    have hstep := report_ready_of_fails nf maxF s hfail
    by_cases hmax : nf = maxF
    · rw [if_pos (by omega)] at hstep
      simp [pollLoop, hstep]
    · rw [if_neg (by omega)] at hstep
      have hnot : ¬ s.timeAfter > deadline := by omega
      simp only [pollLoop, hstep, if_neg hnot]
      exact ih (nf + 1)
        (fun x hx => hall x (List.mem_cons_of_mem s hx))
        (by omega)
        (by simp only [List.length_cons] at hlen; omega)

theorem pollLoop_runPolling_skip (pre : List PollStep) (maxF deadline : Nat) :
    ∀ (nf n : Nat) (rest : List PollStep),
      runPolling maxF deadline nf pre = some n →
      pollLoop maxF deadline nf (pre ++ rest) = pollLoop maxF deadline n rest := by
  induction pre with
  | nil =>
    intro nf n rest h
    simp only [runPolling, Option.some.injEq] at h
    simp [h]
  | cons s t ih =>
    intro nf n rest h
    simp only [runPolling] at h
    rcases hr : report_ready nf maxF s.response with ⟨b, num⟩ | _
    · rw [hr] at h
      cases b with
      | false =>
        by_cases htime : s.timeAfter > deadline
        · simp [htime] at h
        · simp only [if_neg htime] at h
          simp only [List.cons_append, pollLoop, hr, if_neg htime]
          exact ih num n rest h
      | true => simp at h
    · rw [hr] at h; simp at h

/-- The dot-joined method-name chain the specification describes:
`base.n1.n2...nk`. -/
def dotJoined (base : String) : List String → String
  | [] => base
  | n :: rest => base ++ "." ++ dotJoined n rest

/-- The trailing part of a dotted chain: `".n1.n2...nk"`. -/
def dotTail : List String → String
  | [] => ""
  | n :: rest => "." ++ n ++ dotTail rest

theorem dotJoined_eq_append (ns : List String) :
    ∀ base : String, dotJoined base ns = base ++ dotTail ns := by
  induction ns with
  | nil => intro base; simp [dotJoined, dotTail, String.append_empty]
  | cons n t ih =>
    intro base
    simp [dotJoined, dotTail, ih, String.append_assoc]

theorem dotJoined_shift (ns : List String) (base n : String) :
    dotJoined base (n :: ns) = dotJoined (base ++ "." ++ n) ns := by
  simp [dotJoined, dotJoined_eq_append, String.append_assoc]

theorem extendChain_method (names : List String) :
    ∀ p : MethodProxy, (p.extendChain names).method = dotJoined p.method names := by
  induction names with
  | nil => intro p; rfl
  | cons n t ih =>
    intro p
    show ((p.getattr n).extendChain t).method = dotJoined p.method (n :: t)
    rw [ih (p.getattr n), dotJoined_shift]
    rfl

theorem extendChain_fields (names : List String) :
    ∀ p : MethodProxy, (p.extendChain names).url = p.url
      ∧ (p.extendChain names).token = p.token
      ∧ (p.extendChain names).configuration = p.configuration := by
  induction names with
  | nil => intro p; exact ⟨rfl, rfl, rfl⟩
  | cons n t ih => intro p; exact ih (p.getattr n)

/-! ## Claims -/

/-- C9: for every chain of attribute extensions from a Method Router, the
resulting dotted method name equals the dot-joined sequence of extension
names; each extension produces a new router value carrying the same call
context; and the extension is purely functional, so intermediate routers and
sibling branches built from the same base are unaffected by later
extensions. -/
theorem C9_attribute_chain (p : MethodProxy) (names more : List String)
    (a b : String) :
    (p.extendChain names).method = dotJoined p.method names
    ∧ (p.extendChain names).url = p.url
    ∧ (p.extendChain names).token = p.token
    ∧ (p.extendChain names).configuration = p.configuration
    ∧ (p.getattr a).method = p.method ++ "." ++ a
    ∧ ((p.getattr a).extendChain more).method
        = dotJoined (p.method ++ "." ++ a) more
    ∧ (p.getattr b).method = p.method ++ "." ++ b := by
  obtain ⟨hu, ht, hc⟩ := extendChain_fields names p
  exact ⟨extendChain_method names p, hu, ht, hc, rfl,
    extendChain_method more (p.getattr a), rfl⟩

/-- C6: one request/response round-trip of the Request Executor.  On a
transport-success status (exactly 200) with no populated (truthy) `error`
field the call returns the body's `result` field; on a non-200 status or a
populated `error` field it fails with `RemoteFailedError` carrying the raw
response; and — for response bodies carrying a `result` field, as the §6
success envelope shape guarantees — these are the only two outcomes. -/
theorem C6_request_executor_outcomes (h : RequestHandler) (requestId : Nat)
    (transport : RequestEnvelope → HttpResponse) (kwargs : List (String × Value))
    (resp : HttpResponse) (v : Value)
    (hresp : resp = transport (buildPayload h.method h.token requestId kwargs))
    (hres : dictGet resp.body "result" = some v) :
    (resp.status_code = 200 ∧ pyTruthy (dictGet resp.body "error") = false →
       h.handle requestId transport kwargs = .ok v)
    ∧ (resp.status_code ≠ 200 ∨ pyTruthy (dictGet resp.body "error") = true →
       h.handle requestId transport kwargs = .error (.remoteFailedError (some resp)))
    ∧ (h.handle requestId transport kwargs = .ok v
       ∨ h.handle requestId transport kwargs = .error (.remoteFailedError (some resp))) := by
  subst hresp
  refine ⟨?_, ?_, ?_⟩
  · rintro ⟨h200, herr⟩
    simp [RequestHandler.handle, h200, herr, hres]
  · intro hor
    rcases hor with h1 | h1
    · have hb : (transport (buildPayload h.method h.token requestId kwargs)).status_code != 200 := by
        simpa [bne_iff_ne] using h1
      simp [RequestHandler.handle, hb]
    · simp [RequestHandler.handle, h1]
  · by_cases hc : ((transport (buildPayload h.method h.token requestId kwargs)).status_code != 200
        || pyTruthy (dictGet (transport (buildPayload h.method h.token requestId kwargs)).body "error")) = true
    · right; simp [RequestHandler.handle, hc]
    · left
      simp only [Bool.or_eq_true, not_or, Bool.not_eq_true] at hc
      obtain ⟨h200, herr⟩ := hc
      have h200' : (transport (buildPayload h.method h.token requestId kwargs)).status_code = 200 := by
        simpa [bne_iff_ne] using h200
      simp [RequestHandler.handle, h200', herr, hres]

/-- Witness for C6 at a concrete round-trip: a 200 response with body
`{"result": 3}` makes the call return `3`. -/
theorem C6_request_executor_outcomes_witness :
    RequestHandler.handle { method := "m", url := "u", token := "tk" } 5
      (fun _ => { status_code := 200, body := [("result", .int 3)] }) []
      = .ok (.int 3) :=
  (C6_request_executor_outcomes { method := "m", url := "u", token := "tk" } 5
    (fun _ => { status_code := 200, body := [("result", .int 3)] }) []
    { status_code := 200, body := [("result", .int 3)] } (.int 3) rfl rfl).1
    ⟨rfl, rfl⟩

/-- C10: a call executed in asynchronous mode (per-call flag truthy or
`run_async` configured) for which a deserializer resolves feeds the `Future`
handle — returned immediately by `AsyncRequestHandler.handle` — through
`create_from`; since the handle is not a dictionary this raises
`DeserializerError` instead of returning the handle. -/
theorem C10_async_mode_deserializer (p : MethodProxy) (cfg : Configuration)
    (override : Option DictDeserializer) (d : DictDeserializer)
    (order : List String) (asyncFlag : Bool) (blocking : Except PyExc Value)
    (hcfg : p.configuration = some cfg)
    (hmode : (asyncFlag || cfg.run_async) = true)
    (hdes : p.get_deserializer override = some d) :
    p.callAsyncStrategy override order asyncFlag blocking
        = d.create_from order .future
    ∧ p.callAsyncStrategy override order asyncFlag blocking
        = .error (.deserializerError none) := by
  unfold MethodProxy.callAsyncStrategy asyncHandleResult MethodProxy.callResult
  rw [hcfg]
  simp only [hmode, if_true, hdes]
  exact ⟨trivial, rfl⟩

/-- Witness for C10: with `run_async` configured and an explicit deserializer
override, the async call raises `DeserializerError`. -/
theorem C10_async_mode_deserializer_witness :
    MethodProxy.callAsyncStrategy
      { url := "u", token := "t", method := "adv.report.task",
        configuration := some { run_async := true } }
      (some { target_class := fun _ _ => .ok .null, rules := [],
              unmapped_behaviour := .IGNORE })
      [] false (.ok .null)
      = .error (.deserializerError none) :=
  (C10_async_mode_deserializer
    { url := "u", token := "t", method := "adv.report.task",
      configuration := some { run_async := true } }
    { run_async := true }
    (some { target_class := fun _ _ => .ok .null, rules := [],
            unmapped_behaviour := .IGNORE })
    { target_class := fun _ _ => .ok .null, rules := [],
      unmapped_behaviour := .IGNORE }
    [] false (.ok .null) rfl rfl rfl).2

/-- C4: deserializer resolution order of the Method Router, first match
winning: (1) an explicit per-call override always wins, whatever the
configuration; (2) a configured value exposing `create_from` is used for all
methods; (3) a configured mapping is looked up by the full dotted method
name, absence meaning no deserialization; (4) a configured callable is
invoked with the method name; (5) otherwise no deserializer resolves and the
raw result is returned unchanged. -/
theorem C4_deserializer_resolution (p : MethodProxy)
    (override : Option DictDeserializer) :
    (∀ d, override = some d → p.get_deserializer override = some d)
    ∧ (∀ cfg ds d, override = none → p.configuration = some cfg →
         cfg.deserializers = some ds → ds.hasCreateFrom = some d →
         p.get_deserializer override = some d)
    ∧ (∀ cfg ds table, override = none → p.configuration = some cfg →
         cfg.deserializers = some ds → ds.hasCreateFrom = none →
         ds.asDict = some table →
         p.get_deserializer override
             = (table.find? (fun kv => kv.1 = p.method)).map Prod.snd
         ∧ (table.find? (fun kv => kv.1 = p.method) = none →
              p.get_deserializer override = none))
    ∧ (∀ cfg ds f, override = none → p.configuration = some cfg →
         cfg.deserializers = some ds → ds.hasCreateFrom = none →
         ds.asDict = none → ds.asCallable = some f →
         p.get_deserializer override = f p.method)
    ∧ (∀ cfg ds, override = none → p.configuration = some cfg →
         cfg.deserializers = some ds → ds.hasCreateFrom = none →
         ds.asDict = none → ds.asCallable = none →
         p.get_deserializer override = none)
    ∧ (∀ order r, p.get_deserializer override = none →
         p.callResult override order (.ok r) = .ok r) := by
  refine ⟨?_, ?_, ?_, ?_, ?_, ?_⟩
  · intro d hd
    simp [MethodProxy.get_deserializer, hd]
  · intro cfg ds d ho hcfg hds hcf
    simp [MethodProxy.get_deserializer, ho, hcfg, hds, hcf]
  · intro cfg ds table ho hcfg hds hcf htab
    constructor
    · simp [MethodProxy.get_deserializer, ho, hcfg, hds, hcf, htab]
    · intro hfind
      simp [MethodProxy.get_deserializer, ho, hcfg, hds, hcf, htab, hfind]
  · intro cfg ds f ho hcfg hds hcf htab hcall
    simp [MethodProxy.get_deserializer, ho, hcfg, hds, hcf, htab, hcall]
  · intro cfg ds ho hcfg hds hcf htab hcall
    simp [MethodProxy.get_deserializer, ho, hcfg, hds, hcf, htab, hcall]
  · intro order r hnone
    simp [MethodProxy.callResult, hnone]

/-- Witness for C4: each resolution branch applied at a concrete router and
configuration. -/
theorem C4_deserializer_resolution_witness :
    plainProxy.get_deserializer (some trivialDeserializer) = some trivialDeserializer
    ∧ (proxyWithDeserializers
        { hasCreateFrom := some trivialDeserializer, asDict := none,
          asCallable := none }).get_deserializer none = some trivialDeserializer
    ∧ (proxyWithDeserializers
        { hasCreateFrom := none, asDict := some [("z", trivialDeserializer)],
          asCallable := none }).get_deserializer none = none
    ∧ (proxyWithDeserializers
        { hasCreateFrom := none, asDict := none,
          asCallable := some (fun m => if m = "x.y" then some trivialDeserializer else none)
        }).get_deserializer none = some trivialDeserializer
    ∧ (proxyWithDeserializers
        { hasCreateFrom := none, asDict := none, asCallable := none
        }).get_deserializer none = none
    ∧ plainProxy.callResult none [] (.ok (.int 7)) = .ok (.int 7) := by
  refine ⟨?_, ?_, ?_, ?_, ?_, ?_⟩
  · exact (C4_deserializer_resolution plainProxy (some trivialDeserializer)).1
      trivialDeserializer rfl
  · exact (C4_deserializer_resolution _ none).2.1 _ _ trivialDeserializer rfl rfl rfl rfl
  · exact ((C4_deserializer_resolution _ none).2.2.1 _ _
      [("z", trivialDeserializer)] rfl rfl rfl rfl rfl).2 rfl
  · exact ((C4_deserializer_resolution _ none).2.2.2.1 _ _
      (fun m => if m = "x.y" then some trivialDeserializer else none)
      rfl rfl rfl rfl rfl rfl).trans rfl
  · exact (C4_deserializer_resolution _ none).2.2.2.2.1 _ _ rfl rfl rfl rfl rfl rfl
  · exact (C4_deserializer_resolution plainProxy none).2.2.2.2.2 [] (.int 7) rfl

/-- C5 counterexample: a custom handler table that is empty is exhausted
without any predicate matching, yet the Handler Selector does not raise
`NoHandlerError`: the `or` fallback in
`(configuration and configuration.get('handlers', None)) or default_handlers`
treats the empty (falsy) list as absent, and the default catch-all selects
the synchronous `RequestHandler`. -/
theorem C5_counterexample :
    proxyEmptyHandlers.configuration = some { handlers := some [] }
    ∧ proxyEmptyHandlers.get_handler_instance [] = .ok .requestHandler
    ∧ (Except.ok Strategy.requestHandler
        ≠ (.error .noHandlerError : Except PyExc Strategy)) := by
  refine ⟨rfl, rfl, ?_⟩
  intro h
  exact Except.noConfusion h

/-- C5 (amended): the Handler Selector walks the table in order passing the
URL, the dotted method name and the call's keyword arguments; the first
predicate returning true wins regardless of later entries; a *nonempty*
custom table exhausted without a match raises `NoHandlerError`; an empty
custom table, being falsy, is replaced by the default table (whose catch-all
always matches), so only nonempty tables can raise. -/
theorem C5_first_match_wins (url method : String)
    (kwargs : List (String × Value)) (reg : HandlerRegistration)
    (rest : List HandlerRegistration) (p : MethodProxy) (cfg : Configuration)
    (table : List HandlerRegistration) :
    (reg.can_handle url method kwargs = true →
       selectHandler url method kwargs (reg :: rest) = .ok reg.strategy)
    ∧ (reg.can_handle url method kwargs = false →
       selectHandler url method kwargs (reg :: rest)
         = selectHandler url method kwargs rest)
    ∧ selectHandler url method kwargs [] = .error .noHandlerError
    ∧ (p.configuration = some cfg → cfg.handlers = some table → table ≠ [] →
       (∀ r ∈ table, r.can_handle p.url p.method kwargs = false) →
       p.get_handler_instance kwargs = .error .noHandlerError)
    ∧ (p.configuration = some cfg → cfg.handlers = some [] →
       p.get_handler_instance kwargs
         = selectHandler p.url p.method kwargs default_handlers) := by
  refine ⟨?_, ?_, rfl, ?_, ?_⟩
  · intro h; simp [selectHandler, h]
  · intro h; simp [selectHandler, h]
  · intro hcfg htab hne hall
    have heff : effectiveHandlers p.configuration = table := by
      rw [hcfg]
      simp only [effectiveHandlers, htab]
      rw [if_neg (by simpa [List.isEmpty_iff] using hne)]
    unfold MethodProxy.get_handler_instance
    rw [heff]
    clear heff htab hne
    induction table with
    | nil => rfl
    | cons r t ih =>
      have hr := hall r (List.mem_cons_self r t)
      simp only [selectHandler, hr, Bool.false_eq_true, if_false]
      exact ih (fun x hx => hall x (List.mem_cons_of_mem r hx))
  · intro hcfg htab
    unfold MethodProxy.get_handler_instance
    rw [hcfg]
    simp [effectiveHandlers, htab]

/-- Witness for C5 (amended): the default table routes `report.task` to the
Task Poller by its first predicate; a nonempty never-matching custom table
raises `NoHandlerError`; the empty-table configuration falls back to the
default table. -/
theorem C5_first_match_wins_witness :
    selectHandler "u" "report.task" [] default_handlers
      = .ok .asyncRequestHandler
    ∧ proxyNoMatchHandlers.get_handler_instance []
      = .error .noHandlerError
    ∧ proxyEmptyHandlers.get_handler_instance []
      = selectHandler "u" "advertisers.get" [] default_handlers := by
  refine ⟨?_, ?_, ?_⟩
  · have h := (C5_first_match_wins "u" "report.task" []
      { can_handle := fun _ method _ => pyEndsWith method ".task",
        strategy := .asyncRequestHandler }
      [{ can_handle := fun _ _ _ => true, strategy := .requestHandler }]
      plainProxy {} []).1
    exact h rfl
  · exact (C5_first_match_wins "u" "advertisers.get" []
      { can_handle := fun _ _ _ => false, strategy := .custom 0 } []
      proxyNoMatchHandlers { handlers := some noMatchTable } noMatchTable).2.2.2.1
      rfl rfl (by simp [noMatchTable]) (by intro r hr; simp [noMatchTable] at hr; simp [hr])
  · exact (C5_first_match_wins "u" "advertisers.get" []
      { can_handle := fun _ _ _ => false, strategy := .custom 0 } []
      proxyEmptyHandlers { handlers := some [] } []).2.2.2.2 rfl rfl

/-- C7 counterexample: a target constructor that raises `ValueError` is not
caught by `except (AttributeError, TypeError)`, so `create_from` lets the
underlying construction error propagate as its own type instead of wrapping
it in a `DeserializerError`. -/
theorem C7_counterexample :
    valueErrorDeserializer.create_from [] (.dict []) = .error .valueError
    ∧ ((.error .valueError : Except PyExc Value)
        ≠ .error (.deserializerError (some .valueError))) := by
  refine ⟨rfl, ?_⟩
  intro h
  simp at h

/-- C7 (amended): when the target constructor fails with an `AttributeError`
or a `TypeError` (including the `DeserializerError` subclass) — the catch
set of `create_from`, covering wrong arity, wrong type and missing required
argument — the failure is re-signalled as a single `DeserializerError` whose
cause is the original exception; a constructor failure of any other type
propagates unchanged as its own type. -/
theorem C7_construction_failures (d : DictDeserializer) (order : List String)
    (entries : List (String × Value)) (args : List Value)
    (kws : List (String × Value)) (e : PyExc)
    (hmap : d.map_arguments order entries = .ok (args, kws))
    (hfail : d.target_class args kws = .error e) :
    (caughtByCreateFrom e = true →
       d.create_from order (.dict entries) = .error (.deserializerError (some e)))
    ∧ (caughtByCreateFrom e = false →
       d.create_from order (.dict entries) = .error e) := by
  constructor <;> intro hc <;>
    simp [DictDeserializer.create_from, hmap, hfail, hc]

/-- Witness for C7 (amended): a constructor raising `TypeError` is wrapped
with the original as cause. -/
theorem C7_construction_failures_witness :
    typeErrorDeserializer.create_from [] (.dict [])
      = .error (.deserializerError (some .typeError)) :=
  (C7_construction_failures typeErrorDeserializer [] [] [] [] .typeError
    rfl rfl).1 rfl

/-- C1: within one poll sequence, a successful status read resets the
consecutive-failure counter to zero; a failed status check increments it;
starting from a fresh counter, `RemoteFailedError` is surfaced exactly when
`max_failures + 1` consecutive failures occur (`max_failures + 1` failing
steps raise it, at most `max_failures` keep polling); and a run of at most
`max_failures` failures followed by a successful status read continues
without error (fetching when the status is ready). -/
theorem C1_failure_counter (max_failures deadline : Nat) :
    (∀ (nf : Nat) (resp : Except PyExc Value) (b : Bool),
       statusRead resp = .ok b →
       report_ready nf max_failures resp = .continue_ b 0)
    ∧ (∀ (nf : Nat) (resp : Except PyExc Value) (e : PyExc),
       statusRead resp = .error e →
       report_ready nf max_failures resp
         = (if nf + 1 > max_failures then .raised
            else .continue_ false (nf + 1)))
    ∧ (∀ steps : List PollStep,
         (∀ s ∈ steps, s.fails = true ∧ s.timeAfter ≤ deadline) →
         (steps.length = max_failures + 1 →
            pollLoop max_failures deadline 0 steps = .remoteFailed)
         ∧ (steps.length ≤ max_failures →
            pollLoop max_failures deadline 0 steps = .pending))
    ∧ (∀ (steps : List PollStep) (okStep : PollStep) (b : Bool),
         (∀ s ∈ steps, s.fails = true ∧ s.timeAfter ≤ deadline) →
         steps.length ≤ max_failures →
         statusRead okStep.response = .ok b → okStep.timeAfter ≤ deadline →
         pollLoop max_failures deadline 0 (steps ++ [okStep]) ≠ .remoteFailed
         ∧ (b = true →
            pollLoop max_failures deadline 0 (steps ++ [okStep]) = .fetched)) := by
  refine ⟨?_, ?_, ?_, ?_⟩
  · intro nf resp b h
    unfold report_ready
    rw [h]
  · intro nf resp e h
    unfold report_ready
    rw [h]
  · intro steps hall
    constructor
    · intro hlen
      exact pollLoop_failing_raises steps max_failures deadline 0 hall
        (Nat.zero_le _) (by omega)
    · intro hlen
      have hpre := pollLoop_failing_skip steps max_failures deadline 0 [] hall
        (by omega)
      rw [List.append_nil] at hpre
      rw [hpre]
      rfl
  · intro steps okStep b hall hlen hok htime
    have hpre := pollLoop_failing_skip steps max_failures deadline 0 [okStep]
      hall (by omega)
    have hrr : report_ready steps.length max_failures okStep.response
        = .continue_ b 0 := by
      unfold report_ready
      rw [hok]
    have hnt : ¬ okStep.timeAfter > deadline := by omega
    constructor
    · rw [hpre]
      cases b with
      | true => simp [pollLoop, hrr]
      | false => simp [pollLoop, hrr, hnt]
    · intro hb
      rw [hpre]
      rw [hb] at hrr
      simp [pollLoop, hrr]

/-- Witness for C1 at `max_failures = 1`: a success resets the counter, a
tolerated failure increments it, two consecutive failures raise
`RemoteFailedError` (the spec's `[fail, fail, fail]` example raises at the
second), one failure keeps polling, and one failure followed by a ready
status fetches. -/
theorem C1_failure_counter_witness :
    report_ready 5 1 readyStep.response = .continue_ true 0
    ∧ report_ready 0 1 failingStep.response = .continue_ false 1
    ∧ pollLoop 1 100 0 [failingStep, failingStep] = .remoteFailed
    ∧ pollLoop 1 100 0 [failingStep] = .pending
    ∧ pollLoop 1 100 0 [failingStep, readyStep] = .fetched := by
  refine ⟨?_, ?_, ?_, ?_, ?_⟩
  · exact (C1_failure_counter 1 100).1 5 readyStep.response true rfl
  · exact ((C1_failure_counter 1 100).2.1 0 failingStep.response .keyError
      rfl).trans rfl
  · exact ((C1_failure_counter 1 100).2.2.1 [failingStep, failingStep]
      (by decide)).1 rfl
  · exact ((C1_failure_counter 1 100).2.2.1 [failingStep]
      (by decide)).2 (by decide)
  · exact ((C1_failure_counter 1 100).2.2.2 [failingStep] readyStep true
      (by decide) (by decide) rfl (by decide)).2 rfl

/-- C2: in the polling loop, the deadline is computed once at loop entry as
`time.time() + timeout` (with the per-call/configured/default resolution);
whenever an iteration leaves the loop still polling (status not ready, or a
status-check failure within the tolerance budget — so `_report_ready`
returned falsy without raising) and the wall clock has passed that deadline,
`RemoteTimeoutError` is raised, whatever the current consecutive-failure
count `n` is and in particular when the failure budget is not exhausted. -/
theorem C2_deadline_timeout (tArg cfgTimeout : Option Nat)
    (max_failures startTime n m : Nat) (pre : List PollStep) (step : PollStep)
    (rest : List PollStep)
    (hpre : runPolling max_failures (startTime + resolveTimeout tArg cfgTimeout)
        0 pre = some n)
    (hstep : report_ready n max_failures step.response = .continue_ false m)
    (htime : step.timeAfter > startTime + resolveTimeout tArg cfgTimeout) :
    internal_handle_poll tArg cfgTimeout max_failures startTime
        (pre ++ step :: rest) = .timedOut := by
  unfold internal_handle_poll
  rw [pollLoop_runPolling_skip pre max_failures
    (startTime + resolveTimeout tArg cfgTimeout) 0 n (step :: rest) hpre]
  simp [pollLoop, hstep, htime]

/-- Witness for C2: with a per-call timeout of 10 and entry time 0, an
iteration observing the clock at 11 while the remote is still pending — or
while the status check failed once with a budget of 5 — times out. -/
theorem C2_deadline_timeout_witness :
    internal_handle_poll (some 10) none 5 0 [pendingStepLate] = .timedOut
    ∧ internal_handle_poll (some 10) none 5 0 [failingStepLate] = .timedOut := by
  constructor
  · exact C2_deadline_timeout (some 10) none 5 0 0 0 [] pendingStepLate []
      rfl rfl (by decide)
  · exact C2_deadline_timeout (some 10) none 5 0 0 1 [] failingStepLate []
      rfl rfl (by decide)

/-- C3: evaluation of `_map_arguments` at the failing input.  With integer
rules at indices 0, 1, 2 and set-iteration order `c, b, a`, the
`arguments.insert(index, value)` calls of the code produce the positional
arguments `['va', 'vc', 'vb']` — not the index order `['va', 'vb', 'vc']`
that the claim (and the class docstring) promise — because inserting at an
index beyond the current list length merely appends. -/
theorem C3_positional_insert_evaluation :
    threePositionalDeserializer.map_arguments ["c", "b", "a"] threeKeyRaw
      = .ok ([.str "va", .str "vc", .str "vb"], [])
    ∧ threePositionalDeserializer.create_from ["c", "b", "a"] (.dict threeKeyRaw)
      = .ok (.list [.str "va", .str "vc", .str "vb"])
    ∧ ([Value.str "va", .str "vc", .str "vb"]
        ≠ [Value.str "va", .str "vb", .str "vc"]) := by
  refine ⟨rfl, rfl, ?_⟩
  intro h
  simp at h

theorem dictGet_bindNamed_none (names : List String)
    (kwargs : List (String × Value)) (n : String)
    (h : dictGet kwargs n = none) :
    dictGet (bindNamed names kwargs) n = none := by
  induction kwargs with
  | nil => simp [bindNamed, dictGet]
  | cons kv rest ih =>
    obtain ⟨k', v'⟩ := kv
    by_cases hne : k' = n
    · rw [hne] at h
      simp [dictGet] at h
    · have hrest : dictGet rest n = none := by
        simpa [dictGet, hne] using h
      by_cases hmem : k' ∈ names
      · have hstep : bindNamed names ((k', v') :: rest) = bindNamed names rest := by
          simp [bindNamed, List.filter_cons, hmem]
        rw [hstep]
        exact ih hrest
      · have hstep : bindNamed names ((k', v') :: rest)
            = (k', v') :: bindNamed names rest := by
          simp [bindNamed, List.filter_cons, hmem]
        rw [hstep]
        simp [dictGet, hne, ih hrest]

theorem buildPayload_params_get (boundMethod token : String) (requestId : Nat)
    (kwargs : List (String × Value)) (n : String) (hn : n ≠ "token") :
    dictGet (buildPayload boundMethod token requestId kwargs).params n
      = if n = "method" then none else dictGet kwargs n := by
  unfold buildPayload
  rcases hm : dictGet (dictSet kwargs "token" (.str token)) "method" with _ | m
  · simp only [hm]
    by_cases hnm : n = "method"
    · rw [if_pos hnm, hnm]
      exact hm
    · rw [if_neg hnm, dictGet_dictSet]
      simp [hn]
  · simp only [hm]
    rw [dictGet_dictDel]
    by_cases hnm : n = "method"
    · simp [hnm]
    · rw [if_neg hnm, if_neg hnm, dictGet_dictSet]
      simp [hn]

/-- C8 (amended): the wire requests of a poll sequence — the submit
round-trip, every status poll and the final fetch — never carry any of the
six per-call reserved parameters (`_deserializer` bound by
`MethodProxy.__call__`, the `method` override stripped by the payload
builder, and `_timeout`, `_sleep_interval`, `_async`, `_max_failures` bound
by `AsyncRequestHandler.handle`) in their `params`.  The synchronous
Request Executor, whose `handle` binds none of the underscore parameters,
strips only the deserializer override and the method override. -/
theorem C8_reserved_params (method token : String) (requestId : Nat)
    (callKwargs : List (String × Value)) (reportToken : Value) :
    (dictGet (asyncSubmitEnvelope method token requestId callKwargs).params
        "_deserializer" = none
     ∧ dictGet (asyncSubmitEnvelope method token requestId callKwargs).params
        "_timeout" = none
     ∧ dictGet (asyncSubmitEnvelope method token requestId callKwargs).params
        "_sleep_interval" = none
     ∧ dictGet (asyncSubmitEnvelope method token requestId callKwargs).params
        "_async" = none
     ∧ dictGet (asyncSubmitEnvelope method token requestId callKwargs).params
        "_max_failures" = none
     ∧ dictGet (asyncSubmitEnvelope method token requestId callKwargs).params
        "method" = none)
    ∧ (dictGet (statusEnvelope method token requestId reportToken).params
        "_deserializer" = none
     ∧ dictGet (statusEnvelope method token requestId reportToken).params
        "_timeout" = none
     ∧ dictGet (statusEnvelope method token requestId reportToken).params
        "_sleep_interval" = none
     ∧ dictGet (statusEnvelope method token requestId reportToken).params
        "_async" = none
     ∧ dictGet (statusEnvelope method token requestId reportToken).params
        "_max_failures" = none
     ∧ dictGet (statusEnvelope method token requestId reportToken).params
        "method" = none)
    ∧ (dictGet (fetchEnvelope method token requestId reportToken).params
        "_deserializer" = none
     ∧ dictGet (fetchEnvelope method token requestId reportToken).params
        "_timeout" = none
     ∧ dictGet (fetchEnvelope method token requestId reportToken).params
        "_sleep_interval" = none
     ∧ dictGet (fetchEnvelope method token requestId reportToken).params
        "_async" = none
     ∧ dictGet (fetchEnvelope method token requestId reportToken).params
        "_max_failures" = none
     ∧ dictGet (fetchEnvelope method token requestId reportToken).params
        "method" = none)
    ∧ (dictGet (buildPayload method token requestId
          (bindNamed ["_deserializer"] callKwargs)).params "_deserializer" = none
     ∧ dictGet (buildPayload method token requestId
          (bindNamed ["_deserializer"] callKwargs)).params "method" = none) := by
  refine ⟨⟨?_, ?_, ?_, ?_, ?_, ?_⟩, ⟨rfl, rfl, rfl, rfl, rfl, rfl⟩,
    ⟨rfl, rfl, rfl, rfl, rfl, rfl⟩, ?_, ?_⟩
  · rw [asyncSubmitEnvelope, buildPayload_params_get _ _ _ _ _ (by decide),
      if_neg (by decide)]
    exact dictGet_bindNamed_none asyncReservedNames _ _
      (dictGet_bindNamed ["_deserializer"] callKwargs "_deserializer" (by decide))
  · rw [asyncSubmitEnvelope, buildPayload_params_get _ _ _ _ _ (by decide),
      if_neg (by decide)]
    exact dictGet_bindNamed asyncReservedNames _ "_timeout" (by decide)
  · rw [asyncSubmitEnvelope, buildPayload_params_get _ _ _ _ _ (by decide),
      if_neg (by decide)]
    exact dictGet_bindNamed asyncReservedNames _ "_sleep_interval" (by decide)
  · rw [asyncSubmitEnvelope, buildPayload_params_get _ _ _ _ _ (by decide),
      if_neg (by decide)]
    exact dictGet_bindNamed asyncReservedNames _ "_async" (by decide)
  · rw [asyncSubmitEnvelope, buildPayload_params_get _ _ _ _ _ (by decide),
      if_neg (by decide)]
    exact dictGet_bindNamed asyncReservedNames _ "_max_failures" (by decide)
  · rw [asyncSubmitEnvelope, buildPayload_params_get _ _ _ _ _ (by decide),
      if_pos rfl]
  · rw [buildPayload_params_get _ _ _ _ _ (by decide), if_neg (by decide)]
    exact dictGet_bindNamed ["_deserializer"] callKwargs "_deserializer" (by decide)
  · rw [buildPayload_params_get _ _ _ _ _ (by decide), if_pos rfl]

/-- C8 counterexample: a call on a non-`.task` method is handled by the
synchronous `RequestHandler`, whose `handle` signature binds none of the
underscore-reserved parameters; a per-call `_timeout` keyword therefore
survives into the `params` of the wire request. -/
theorem C8_counterexample :
    selectHandler "u" "advertisers.get" [("_timeout", .int 1)] default_handlers
      = .ok .requestHandler
    ∧ dictGet (buildPayload "advertisers.get" "tok" 7
        (bindNamed ["_deserializer"] [("_timeout", .int 1)])).params "_timeout"
      = some (.int 1) :=
  ⟨rfl, rfl⟩
